import Mathlib

/-!
Verification of the retail-analytics repository (`ecommerce_ia`).

This file gives a shallow embedding of the code that the specification's
claims are about:

* `src/database.py` — `DatabaseManager.register_sale` and
  `DatabaseManager.get_product_sales` over an explicit database state;
* `src/predictor.py` — `SalesPredictor.predict_sales`,
  `_calculate_trend`, `_calculate_seasonality`, `calculate_metrics`;
* `src/anomaly_detection.py` — `AnomalyDetector.detect_sales_anomalies`
  and `detect_inventory_anomalies`;
* `src/clustering.py` — `ProductClusterer.perform_clustering` and the
  cluster-count slider of `pagina_clustering`;
* `src/utils.py` — `MetricsCalculator.calculate_stock_turnover` and
  `calculate_margin`.

Python/pandas floats are modelled by `PF`: an exact rational or NaN, with
the Python comparison/`max`/`min`/truthiness semantics spelled out.  The
sample standard deviation (whose exact value is irrational in general) is
characterised by the predicate `isStdOf` instead of being computed.
External library fits (sklearn's IsolationForest and KMeans) are modelled
as deterministic Lean functions that expose exactly the behaviour the
claims depend on: input validation (NaN rejection, `n_samples ≥
n_clusters`) and seed handling (`random_state` fixed versus ambient
randomness).
-/

namespace Ecom

/-! ## A model of Python / pandas floating-point values -/

/-- A pandas float value: either an exact rational or NaN.  (Infinities,
which none of the verified paths can produce or observe, are folded into
NaN.) -/
inductive PF where
  | nan : PF
  | val : ℚ → PF
deriving DecidableEq, Repr

/-- NaN test. -/
def PF.isNan : PF → Bool
  | .nan => true
  | .val _ => false

/-- Addition; NaN propagates. -/
def PF.add : PF → PF → PF
  | .val a, .val b => .val (a + b)
  | _, _ => .nan

/-- Subtraction; NaN propagates. -/
def PF.sub : PF → PF → PF
  | .val a, .val b => .val (a - b)
  | _, _ => .nan

/-- Multiplication; NaN propagates. -/
def PF.mul : PF → PF → PF
  | .val a, .val b => .val (a * b)
  | _, _ => .nan

/-- Division; NaN propagates, and division by zero produces the junk value
(inf/NaN in numpy, always discarded or guarded in the verified paths),
modelled as NaN. -/
def PF.div : PF → PF → PF
  | .val a, .val b => if b = 0 then .nan else .val (a / b)
  | _, _ => .nan

/-- The `<` comparison as Python evaluates it on floats: any comparison
involving NaN is false. -/
def PF.ltb : PF → PF → Bool
  | .val a, .val b => decide (a < b)
  | _, _ => false

/-- The `≤` comparison as Python evaluates it on floats: any comparison
involving NaN is false. -/
def PF.leb : PF → PF → Bool
  | .val a, .val b => decide (a ≤ b)
  | _, _ => false

/-- Python's builtin `max(a, x)`: starts from the first argument and
replaces it only when `x > a`, so `max(a, NaN) = a`. -/
def pymax (a x : PF) : PF := if PF.ltb a x then x else a

/-- Python's builtin `min(a, x)`: starts from the first argument and
replaces it only when `x < a`, so `min(a, NaN) = a`. -/
def pymin (a x : PF) : PF := if PF.ltb x a then x else a

/-- Python's `x or 0`: `0.0` is the only falsy float, NaN is truthy. -/
def pfOrZero (x : PF) : PF := if x = .val 0 then .val 0 else x

/-- Python's `x or 1.0`: replaces the falsy `0.0` by `1.0`, keeps NaN. -/
def pfOrOne (x : PF) : PF := if x = .val 0 then .val 1 else x

/-- Mean of a list of rationals, as `np.mean`/`pd.mean` computes it on a
list of actual numbers (the guarded call sites never pass an empty list;
the `0`-on-empty of rational division is unreachable junk there). -/
def meanQ (xs : List ℚ) : ℚ := xs.sum / xs.length

/-- Mean of a list of rationals as a pandas float: NaN on an empty list. -/
def qMean (xs : List ℚ) : PF := if xs.isEmpty then .nan else .val (meanQ xs)

/-- pandas `Series.mean()` with the default `skipna=True`: NaN entries are
ignored; the result is NaN only when no numeric entry remains. -/
def pfMean (xs : List PF) : PF :=
  qMean (xs.filterMap fun x => match x with | .nan => none | .val q => some q)

/-- pandas `Series.std()` (sample variance, `ddof = 1`): NaN on fewer than
two values.  This is the variance; the standard deviation itself is its
square root, characterised by `isStdOf` below. -/
def sampleVar (xs : List ℚ) : PF :=
  if xs.length ≤ 1 then .nan
  else .val ((xs.map fun x => (x - meanQ xs) ^ 2).sum / ((xs.length : ℚ) - 1))

/-- Characterisation of `Series.std()`: `σ` is the standard deviation of
`xs` when it is NaN exactly when the sample variance is NaN, and otherwise
is the non-negative square root of the sample variance. -/
def isStdOf (xs : List ℚ) : PF → Prop
  | .nan => sampleVar xs = .nan
  | .val s => 0 ≤ s ∧ PF.val (s * s) = sampleVar xs

/-! ## Database layer (`src/database.py`) -/

/-- A row of the `productos` table (the columns `register_sale` touches). -/
structure Producto where
  id : ℕ
  stockActual : ℤ
deriving DecidableEq, Repr

/-- A row of the `ventas` table. -/
structure Venta where
  id : ℕ
  productoId : ℕ
  cantidad : ℤ
  precioVenta : ℚ
deriving DecidableEq, Repr

/-- The database state visible to `register_sale`. -/
structure DBState where
  productos : List Producto
  ventas : List Venta
  nextVentaId : ℕ
deriving DecidableEq, Repr

/-- The `SELECT stock_actual FROM productos WHERE id = :producto_id` query:
`None` when the product does not exist. -/
def stockOf (st : DBState) (pid : ℕ) : Option ℤ :=
  (st.productos.find? fun p => p.id == pid).map (·.stockActual)

/-- `DatabaseManager.register_sale` (`src/database.py:121-178`): inside one
transaction, read the current stock (`FOR UPDATE`), raise `ValueError` if
the product is missing or `stock_actual < cantidad`, otherwise insert the
`ventas` row and decrement the product's stock.  Errors are re-raised. -/
def register_sale (st : DBState) (productoId : ℕ) (cantidad : ℤ) (precioVenta : ℚ) :
    Except String (DBState × ℕ) :=
  match stockOf st productoId with
  | none => .error "Producto no encontrado"
  | some stockActual =>
    if stockActual < cantidad then
      .error ("Stock insuficiente. Stock actual: " ++ toString stockActual)
    else
      let ventaId := st.nextVentaId
      let st2 : DBState :=
        { productos := st.productos.map fun p =>
            if p.id == productoId then { p with stockActual := p.stockActual - cantidad } else p
          ventas := st.ventas ++
            [{ id := ventaId, productoId := productoId,
               cantidad := cantidad, precioVenta := precioVenta }]
          nextVentaId := ventaId + 1 }
      .ok (st2, ventaId)

/-- The database state after a `register_sale` call: on any raise inside
the `engine.begin()` block the transaction rolls back, leaving the state
unchanged. -/
def registerSaleState (st : DBState) (pid : ℕ) (q : ℤ) (price : ℚ) : DBState :=
  match register_sale st pid q price with
  | .ok (st2, _) => st2
  | .error _ => st

/-- `DatabaseManager.get_product_sales` (`src/database.py:239-276`): the
90-day date-spine query result (one `(ds, y)` row per day) is returned as
is when non-empty; when it is empty the function builds a 91-day synthetic
frame whose `y` values are `np.random.normal(10, 2)` draws clipped below
at 0.  The normal draws are passed in as `randomNormalDraws`. -/
def get_product_sales (queryResult : List (ℕ × ℚ)) (randomNormalDraws : ℕ → ℚ)
    (today : ℕ) : Option (List (ℕ × ℚ)) :=
  if queryResult.isEmpty then
    some ((List.range 91).map fun i => (today - 90 + i, max 0 (randomNormalDraws i)))
  else
    some queryResult

/-! ## Forecaster (`src/predictor.py`) -/

/-- A row of the historical frame handed to `SalesPredictor`: `ds` is the
date as a day number (day 0 being a Monday, so the weekday is `ds % 7`),
and `y` is the sales value after `pd.to_numeric(..., errors = coerce)` —
`none` models a non-numeric/NaN entry. -/
structure HistRow where
  ds : ℕ
  y : Option ℚ
deriving DecidableEq, Repr

/-- The `dropna(subset = y)` step of `predict_sales`: keep the rows whose
`y` coerced to a number. -/
def cleanRows (rows : List HistRow) : List (ℕ × ℚ) :=
  rows.filterMap fun r => r.y.map fun q => (r.ds, q)

/-- `SalesPredictor._calculate_trend` (`src/predictor.py:86-99`): the mean
of `np.diff(sales)` divided by `np.mean(sales[:-1]) + 1e-6`; `0.0` when
fewer than two points. -/
def calculate_trend (ys : List ℚ) : ℚ :=
  if ys.length < 2 then 0
  else
    let diffs := (ys.zip ys.tail).map fun p => p.2 - p.1
    let avgDiff := diffs.sum / diffs.length
    avgDiff / (meanQ ys.dropLast + 1 / 1000000)

/-- `SalesPredictor._calculate_seasonality` (`src/predictor.py:101-121`):
per-weekday mean sales divided by the overall mean (`or 1.0`), clamped
into `[0.5, 1.5]` by Python's `max(0.5, min(1.5, ·))`; weekdays absent
from the history get factor `1.0`. -/
def calculate_seasonality (rows : List (ℕ × ℚ)) (day : ℕ) : PF :=
  let dayVals := (rows.filter fun r => r.1 % 7 == day).map (·.2)
  if dayVals.isEmpty then .val 1
  else
    let overallAvg := pfOrOne (qMean (rows.map (·.2)))
    pymax (.val (1 / 2)) (pymin (.val (3 / 2)) (PF.div (qMean dayVals) overallAvg))

/-- A row of the forecast frame produced by `predict_sales`. -/
structure ForecastRow where
  ds : ℕ
  yhat : PF
  yhatLower : PF
  yhatUpper : PF
deriving DecidableEq, Repr

/-- The base prediction of the `i`-th future day
(`src/predictor.py:54`): `max(0, mean_sales * (1 + trend * (i / 30)))`. -/
def basePrediction (meanSales trend : ℚ) (i : ℕ) : ℚ :=
  max 0 (meanSales * (1 + trend * ((i : ℚ) / 30)))

/-- One forecast row (`src/predictor.py:52-70`): the base prediction is
scaled by the seasonal factor of the future date's weekday and floored at
0; the confidence bounds are `prediction ∓ 1.96 * std_sales`, with the
lower bound floored at 0 by Python's `max`. -/
def forecastRow (meanSales trend : ℚ) (seasonality : ℕ → PF) (stdSales : PF)
    (lastDate i : ℕ) : ForecastRow :=
  let date := lastDate + 1 + i
  let seasonalFactor := seasonality (date % 7)
  let prediction := pymax (.val 0) (PF.mul (.val (basePrediction meanSales trend i)) seasonalFactor)
  let lower := pymax (.val 0) (PF.sub prediction (PF.mul (.val (196 / 100)) stdSales))
  let upper := PF.add prediction (PF.mul (.val (196 / 100)) stdSales)
  { ds := date, yhat := prediction, yhatLower := lower, yhatUpper := upper }

/-- `SalesPredictor.predict_sales` (`src/predictor.py:20-84`).  Returns
`none` when the input frame is `None` or empty; when every `y` fails the
numeric coercion the body raises while building the future date range from
a NaT last date, which the `except` clause converts to `None` as well.
`σ` is the pandas standard deviation of the cleaned `y` column,
characterised by `isStdOf` (NaN when fewer than two points remain); the
`or 0` guards keep NaN because NaN is truthy. -/
def predict_sales (historicalData : Option (List HistRow)) (periods : ℕ) (σ : PF) :
    Option (List ForecastRow) :=
  match historicalData with
  | none => none
  | some rows =>
    if rows.isEmpty then none
    else
      let cleaned := cleanRows rows
      if cleaned.isEmpty then none
      else
        let ys := cleaned.map (·.2)
        let meanSales := meanQ ys
        let stdSales := pfOrZero σ
        let trend := calculate_trend ys
        let lastDate := (cleaned.map (·.1)).foldr max 0
        some ((List.range periods).map
          (forecastRow meanSales trend (calculate_seasonality cleaned) stdSales lastDate))

/-- The `stock_recommendations` payload of `calculate_metrics`. -/
structure StockRec where
  minStock : PF
  maxStock : PF
  optimalStock : PF
deriving DecidableEq, Repr

/-- A row of the `weekly_pattern` frame: weekday index (0 = Monday, the
`Categorical` ordering of the code), mean sales and non-NaN count. -/
structure WeekRow where
  weekday : ℕ
  ventasPromedio : PF
  conteo : ℕ
deriving DecidableEq, Repr

/-- The metrics dictionary returned by `calculate_metrics`. -/
structure Metrics where
  trendChange : PF
  monthlyPredictions : List ForecastRow
  stockRecommendations : StockRec
  weeklyPattern : List WeekRow
deriving DecidableEq, Repr

/-- The fallback dictionary of the `except` branch of `calculate_metrics`
(`src/predictor.py:185-196`). -/
def defaultMetrics : Metrics :=
  { trendChange := .val 0
    monthlyPredictions := []
    stockRecommendations := { minStock := .val 15, maxStock := .val 45, optimalStock := .val 30 }
    weeklyPattern := [] }

/-- pandas `tail(30)`: the last (at most) 30 rows. -/
def tail30 (xs : List α) : List α := xs.drop (xs.length - 30)

/-- Coercion of a frame cell to a pandas float. -/
def optToPF : Option ℚ → PF
  | none => .nan
  | some q => .val q

/-- The `weekly_pattern` computation of `calculate_metrics`
(`src/predictor.py:147-165`): per-weekday mean (skipping NaN) and non-NaN
count over the historical frame, one row per weekday present, in
Monday-to-Sunday order; empty when the history is empty. -/
def weeklyPattern (hist : List HistRow) : List WeekRow :=
  if hist.isEmpty then []
  else
    ((List.range 7).filter fun d => hist.any fun r => r.ds % 7 == d).map fun d =>
      let grp := hist.filter fun r => r.ds % 7 == d
      { weekday := d
        ventasPromedio := pfMean (grp.map fun r => optToPF r.y)
        conteo := (grp.filterMap (·.y)).length }

/-- `SalesPredictor.calculate_metrics` (`src/predictor.py:123-196`).  A
`None` forecast or history raises `ValueError`, which the `except` branch
turns into `defaultMetrics`.  Otherwise: `trend_change` compares the mean
of the last 30 predictions against the mean of the last 30 historical
values (0 unless the latter is `> 0`); `daily_avg = max(1, mean(yhat))`
(Python `max`, so a NaN mean gives 1); and the stock recommendation is
`max(15, 15·daily_avg)`, `max(45, 45·daily_avg)`, `max(30, 30·daily_avg)`. -/
def calculate_metrics (forecast : Option (List ForecastRow))
    (historicalData : Option (List HistRow)) : Metrics :=
  match forecast, historicalData with
  | some fc, some hist =>
    let last30Pred := pfOrZero (pfMean (tail30 (fc.map (·.yhat))))
    let prev30Hist := pfOrZero (pfMean (tail30 (hist.map fun r => optToPF r.y)))
    let trendChange :=
      if PF.ltb (.val 0) prev30Hist then
        PF.mul (PF.div (PF.sub last30Pred prev30Hist) prev30Hist) (.val 100)
      else .val 0
    let monthlyPred := tail30 fc
    let dailyAvg := pymax (.val 1) (pfMean (monthlyPred.map (·.yhat)))
    let stockMin := pymax (.val 15) (PF.mul dailyAvg (.val 15))
    let stockMax := pymax (.val 45) (PF.mul dailyAvg (.val 45))
    let stockOptimal := pymax (.val 30) (PF.mul dailyAvg (.val 30))
    { trendChange := trendChange
      monthlyPredictions := monthlyPred
      stockRecommendations :=
        { minStock := stockMin, maxStock := stockMax, optimalStock := stockOptimal }
      weeklyPattern := weeklyPattern hist }
  | _, _ => defaultMetrics

/-! ## Anomaly detector (`src/anomaly_detection.py`) -/

/-- Model of `sklearn.ensemble.IsolationForest(contamination,
random_state).fit_predict` / `score_samples`.  It exposes exactly the
library behaviour the code paths depend on: the input validation rejects
NaN entries with a `ValueError`; with `random_state = some s` the fit is a
pure function of `s` and the data, while with `random_state = none`
sklearn draws from the global RNG, modelled by the ambient `entropy`
parameter.  The concrete labels/scores (largest mean-deviations flagged,
a seed-dependent perturbation on the scores) stand in for the forest's
internals, which no claim inspects. -/
def isolationForestFit (randomState : Option ℕ) (entropy : ℕ) (contamination : ℚ)
    (xs : List PF) : Except String (List ℤ × List ℚ) :=
  if xs.any PF.isNan then .error "Input contains NaN"
  else
    let seed := randomState.getD entropy
    let vals := xs.map fun x => match x with | .val q => q | .nan => 0
    let μ := meanQ vals
    let devs := vals.map fun x => |x - μ|
    let maxDev := devs.foldr max 0
    let labels := devs.map fun d =>
      if maxDev ≠ 0 ∧ (1 - contamination) * maxDev ≤ d then (-1 : ℤ) else 1
    let scores := devs.mapIdx fun i d =>
      d / (maxDev + 1) + (((seed + i) % 97 : ℕ) : ℚ) / 1000
    .ok (labels, scores)

/-- A row of the annotated sales frame returned by
`detect_sales_anomalies`. -/
structure SalesAnnotated where
  ds : ℕ
  y : ℚ
  ySmooth : ℚ
  anomaly : ℤ
  anomalyScore : ℚ
deriving DecidableEq, Repr

/-- pandas `rolling(window = 7, min_periods = 1).mean()`: at index `i`,
the mean of the up-to-7 trailing values ending at `i`. -/
def rollingMean7 (xs : List ℚ) : List ℚ :=
  xs.mapIdx fun i _ => meanQ ((xs.take (i + 1)).drop (i + 1 - 7))

/-- Model of `statsmodels.tsa.seasonal.seasonal_decompose(period = 7,
extrapolate_trend = freq)` returning the residual component: the trend is
a centred 7-day moving average (window clamped at the edges, standing in
for the linear edge extrapolation), the seasonal component is the
per-weekday mean of the detrended series re-centred to zero, and the
residual is what remains.  The library raises when the series is shorter
than two full periods. -/
def seasonalDecomposeResid (xs : List ℚ) : Except String (List ℚ) :=
  if xs.length < 14 then .error "x must have 2 complete cycles"
  else
    let trend := xs.mapIdx fun i _ => meanQ ((xs.take (i + 4)).drop (i - 3))
    let detr := (xs.zip trend).map fun p => p.1 - p.2
    let seasonalMean := fun d =>
      meanQ ((detr.mapIdx fun i v => (i, v)).filterMap
        fun p => if p.1 % 7 == d then some p.2 else none)
    let grandMean := meanQ ((List.range 7).map seasonalMean)
    .ok (((xs.zip trend).zip (List.range xs.length)).map
      fun p => p.1.1 - p.1.2 - (seasonalMean (p.2 % 7) - grandMean))

/-- `AnomalyDetector.detect_sales_anomalies`
(`src/anomaly_detection.py:15-105`), taking the frame fetched by
`get_product_sales` as input.  Returns `none` when the data is `None` or
shorter than `window_size` (default 30); otherwise fills NaN with 0,
smooths with a trailing 7-day mean, decomposes, and scores the residual
with `IsolationForest(contamination = 0.1, random_state = 42)`.  Any
library raise is caught and converted to `none`. -/
def detect_sales_anomalies (entropy : ℕ) (salesData : Option (List (ℕ × PF)))
    (windowSize : ℕ := 30) : Option (List SalesAnnotated) :=
  match salesData with
  | none => none
  | some data =>
    if data.length < windowSize then none
    else
      let ys := data.map fun r => match r.2 with | .val q => q | .nan => 0
      let smooth := rollingMean7 ys
      match seasonalDecomposeResid smooth with
      | .error _ => none
      | .ok resid =>
        match isolationForestFit (some 42) entropy (1 / 10) (resid.map PF.val) with
        | .error _ => none
        | .ok (labels, scores) =>
          some ((((data.zip smooth).zip labels).zip scores).map fun p =>
            { ds := p.1.1.1.1, y := (match p.1.1.1.2 with | .val q => q | .nan => 0)
              ySmooth := p.1.1.2, anomaly := p.1.2, anomalyScore := p.2 })

/-- A row of the annotated inventory frame returned by
`detect_inventory_anomalies`. -/
structure InventoryAnnotated where
  fecha : ℕ
  stockActual : ℤ
  nextStock : Option ℤ
  stockChange : PF
  anomaly : ℤ
  anomalyScore : ℚ
deriving DecidableEq, Repr

/-- The `LEAD(stock_actual) OVER (ORDER BY fecha_venta)` column of the
inventory query: each row's successor stock, `NULL` on the last row. -/
def leadStock : List (ℕ × ℤ) → List (Option ℤ)
  | [] => []
  | [_] => [none]
  | _ :: b :: rest => some b.2 :: leadStock (b :: rest)

/-- The `stock_change` column (`src/anomaly_detection.py:129`):
`stock_actual - next_stock`, NaN on the last row whose `LEAD` is `NULL`. -/
def stockChanges (inventoryData : List (ℕ × ℤ)) : List PF :=
  (inventoryData.zip (leadStock inventoryData)).map fun p =>
    match p.2 with
    | some nx => PF.val ((p.1.2 - nx : ℤ) : ℚ)
    | none => PF.nan

/-- `AnomalyDetector.detect_inventory_anomalies`
(`src/anomaly_detection.py:107-194`), taking the ordered `(fecha,
stock_actual)` query rows as input.  Returns `none` on an empty frame;
otherwise computes `stock_change = stock_actual - next_stock` (NaN on the
last row, whose `LEAD` is `NULL`) and fits
`IsolationForest(contamination = 0.1, random_state = 42)` on it — the NaN
makes the fit raise, and the `except` clause converts any raise to
`none`. -/
def detect_inventory_anomalies (entropy : ℕ) (inventoryData : List (ℕ × ℤ)) :
    Option (List InventoryAnnotated) :=
  if inventoryData.isEmpty then none
  else
    let nexts := leadStock inventoryData
    let changes := stockChanges inventoryData
    match isolationForestFit (some 42) entropy (1 / 10) changes with
    | .error _ => none
    | .ok (labels, scores) =>
      some ((((inventoryData.zip nexts).zip changes).zip (labels.zip scores)).map fun p =>
        { fecha := p.1.1.1.1, stockActual := p.1.1.1.2, nextStock := p.1.1.2
          stockChange := p.1.2, anomaly := p.2.1, anomalyScore := p.2.2 })

/-! ## Clusterer (`src/clustering.py`) -/

/-- Model of `sklearn.cluster.KMeans(n_clusters, random_state,
n_init).fit_predict`: the input validation raises a `ValueError` unless
`1 ≤ n_clusters ≤ n_samples`; otherwise every sample receives one label in
`[0, n_clusters)` and every cluster is non-empty (sklearn relocates empty
clusters).  The concrete assignment stands in for Lloyd's algorithm, which
no claim inspects; with a fixed `random_state` the fit is deterministic. -/
def kmeansFitPredict (nClusters : ℕ) (_randomState : Option ℕ) (_nInit : ℕ)
    (points : List (ℚ × ℚ)) : Except String (List ℕ) :=
  if nClusters = 0 then .error "n_clusters should be an int in the range of 1 to n_samples"
  else if points.length < nClusters then
    .error ("n_samples=" ++ toString points.length ++
      " should be >= n_clusters=" ++ toString nClusters)
  else
    .ok ((List.range points.length).map fun i => i % nClusters)

/-- `ProductClusterer.perform_clustering` (`src/clustering.py:52-70`):
fits `KMeans(n_clusters = self.n_clusters, random_state = 42, n_init =
10)` on the 2-component PCA frame and returns the labels together with
the cluster centres; any raise is logged and re-raised.  No clamping of
`n_clusters` happens anywhere on this path. -/
def perform_clustering (nClusters : ℕ) (dfPca : List (ℚ × ℚ)) :
    Except String (List ℕ × List (ℚ × ℚ)) :=
  match kmeansFitPredict nClusters (some 42) 10 dfPca with
  | .error e => .error e
  | .ok clusters =>
    let centers := (List.range nClusters).map fun c =>
      let pts := ((dfPca.zip clusters).filter fun p => p.2 == c).map (·.1)
      (meanQ (pts.map (·.1)), meanQ (pts.map (·.2)))
    .ok (clusters, centers)

/-- The cluster-count slider of `pagina_clustering`
(`src/clustering.py:209-214`): the user may choose any `k` from 2 to 10
(default 5), and the chosen value is stored into `clusterer.n_clusters`
and passed to `perform_clustering` unmodified. -/
def sliderAllows (k : ℕ) : Prop := 2 ≤ k ∧ k ≤ 10

/-! ## Metric calculators (`src/utils.py`) -/

/-- `np.where(cond, a, b)`: both branch arrays are fully evaluated first
(division by zero in the discarded branch only emits a numpy warning and a
junk value, modelled as NaN — never an exception), then selected
elementwise. -/
def npWhere (cond : List Bool) (a b : List PF) : List PF :=
  (cond.zip (a.zip b)).map fun p => if p.1 then p.2.1 else p.2.2

/-- `MetricsCalculator.calculate_stock_turnover` (`src/utils.py:82-85`):
`np.where(stock > 0, sales / stock, 0)` over aligned numeric arrays. -/
def calculate_stock_turnover (sales stock : List ℚ) : List PF :=
  npWhere (stock.map fun s => decide (0 < s))
    ((sales.zip stock).map fun p => PF.div (.val p.1) (.val p.2))
    (stock.map fun _ => PF.val 0)

/-- `MetricsCalculator.calculate_margin` (`src/utils.py:87-90`):
`np.where(revenue > 0, (revenue - cost) / revenue * 100, 0)` over aligned
numeric arrays. -/
def calculate_margin (revenue cost : List ℚ) : List PF :=
  npWhere (revenue.map fun r => decide (0 < r))
    ((revenue.zip cost).map fun p => PF.mul (PF.div (PF.sub (.val p.1) (.val p.2)) (.val p.1)) (.val 100))
    (revenue.map fun _ => PF.val 0)

/-! ## Theorems -/

/-- Finding a product after the stock-decrement `UPDATE` of
`register_sale`: the first row matching the id is the decremented one. -/
theorem find?_map_update (l : List Producto) (pid : ℕ) (q : ℤ) :
    (l.map fun p =>
        if p.id == pid then { p with stockActual := p.stockActual - q } else p).find?
        (fun p => p.id == pid)
      = (l.find? fun p => p.id == pid).map
          fun p => { p with stockActual := p.stockActual - q } := by
  induction l with
  | nil => rfl
  | cons a l ih =>
    by_cases h : a.id = pid
    · have hb : (a.id == pid) = true := by simpa using h
      have hb2 : (({ a with stockActual := a.stockActual - q } : Producto).id == pid) = true := by
        simpa using h
      rw [List.map_cons, if_pos hb, List.find?_cons_of_pos (p := fun x : Producto => x.id == pid) _ hb2,
        List.find?_cons_of_pos (p := fun x : Producto => x.id == pid) _ hb]
      rfl
    · have hb : ¬ (a.id == pid) = true := by simpa using h
      rw [List.map_cons, if_neg hb,
        List.find?_cons_of_neg (p := fun x : Producto => x.id == pid) _ (by simpa using h),
        List.find?_cons_of_neg (p := fun x : Producto => x.id == pid) _ (by simpa using h), ih]

/-- C1.  For every product with current stock `S` and every requested
quantity `Q`: `register_sale` succeeds, appends the sale row, and reduces
the stock to `S − Q` when `Q ≤ S`; and when `Q > S` it raises the
stock-insufficient `ValueError`, the transaction rolls back leaving the
stock at `S`, and no `ventas` row is created. -/
theorem register_sale_spec (st : DBState) (pid : ℕ) (q : ℤ) (price : ℚ) (S : ℤ)
    (hS : stockOf st pid = some S) :
    (q ≤ S → ∃ st2 vid, register_sale st pid q price = .ok (st2, vid) ∧
        stockOf st2 pid = some (S - q) ∧
        st2.ventas = st.ventas ++ [⟨st.nextVentaId, pid, q, price⟩]) ∧
    (S < q →
        register_sale st pid q price =
          .error ("Stock insuficiente. Stock actual: " ++ toString S) ∧
        stockOf (registerSaleState st pid q price) pid = some S ∧
        (registerSaleState st pid q price).ventas = st.ventas) := by
  obtain ⟨p, hp, hps⟩ : ∃ p, (st.productos.find? fun p => p.id == pid) = some p ∧
      p.stockActual = S := by
    rcases Option.map_eq_some'.mp hS with ⟨p, hp, hps⟩
    exact ⟨p, hp, hps⟩
  constructor
  · intro hq
    have hlt : ¬ S < q := not_lt.mpr hq
    have hok : register_sale st pid q price = .ok
        ({ productos := st.productos.map fun p =>
              if p.id == pid then { p with stockActual := p.stockActual - q } else p
           ventas := st.ventas ++ [⟨st.nextVentaId, pid, q, price⟩]
           nextVentaId := st.nextVentaId + 1 }, st.nextVentaId) := by
      simp only [register_sale, hS]
      rw [if_neg hlt]
    refine ⟨_, _, hok, ?_, rfl⟩
    simp only [stockOf, find?_map_update, hp, Option.map_some]
    simp [hps]
  · intro hgt
    have herr : register_sale st pid q price =
        .error ("Stock insuficiente. Stock actual: " ++ toString S) := by
      simp only [register_sale, hS]
      rw [if_pos hgt]
    refine ⟨herr, ?_, ?_⟩
    · simp only [registerSaleState, herr]
      exact hS
    · simp only [registerSaleState, herr]

/-- Witness for C1: the spec scenario — a sale of 10 units against stock
3 raises, the stock stays 3, and no sale row is created. -/
theorem register_sale_spec_witness :
    stockOf ⟨[⟨1, 3⟩], [], 0⟩ 1 = some 3 ∧
    ((3 : ℤ) < 10 ∧
      register_sale ⟨[⟨1, 3⟩], [], 0⟩ 1 10 5 =
        .error ("Stock insuficiente. Stock actual: " ++ toString (3 : ℤ)) ∧
      stockOf (registerSaleState ⟨[⟨1, 3⟩], [], 0⟩ 1 10 5) 1 = some 3 ∧
      (registerSaleState ⟨[⟨1, 3⟩], [], 0⟩ 1 10 5).ventas = []) := by
  refine ⟨by rfl, by norm_num, ?_⟩
  exact (register_sale_spec ⟨[⟨1, 3⟩], [], 0⟩ 1 10 5 3 (by rfl)).2 (by norm_num)

/-- Python `max` agrees with the order `max` on actual numbers. -/
theorem pymax_val (a b : ℚ) : pymax (.val a) (.val b) = .val (max a b) := by
  unfold pymax PF.ltb
  by_cases h : a < b
  · simp [h, max_eq_right h.le]
  · simp [h, max_eq_left (not_lt.mp h)]

/-- Python `min` agrees with the order `min` on actual numbers. -/
theorem pymin_val (a b : ℚ) : pymin (.val a) (.val b) = .val (min a b) := by
  unfold pymin PF.ltb
  by_cases h : b < a
  · simp [h, min_eq_right h.le]
  · simp [h, min_eq_left (not_lt.mp h)]

/-- Python `max(a, NaN)` keeps the first argument. -/
theorem pymax_nan (a : PF) : pymax a .nan = a := by
  cases a <;> rfl

/-- The `or 0` guard is the identity on actual numbers. -/
theorem pfOrZero_val (s : ℚ) : pfOrZero (.val s) = .val s := by
  by_cases h : s = 0 <;> simp [pfOrZero, h]

/-- A history with at least two numeric points has an actual (non-NaN,
non-negative) standard deviation. -/
theorem isStdOf_val (xs : List ℚ) (σ : PF) (h : isStdOf xs σ) (h2 : 2 ≤ xs.length) :
    ∃ s, σ = .val s ∧ 0 ≤ s := by
  cases σ with
  | nan =>
    exfalso
    have hv : sampleVar xs = .nan := h
    unfold sampleVar at hv
    rw [if_neg (by omega)] at hv
    exact PF.noConfusion hv
  | val s => exact ⟨s, rfl, h.1⟩

/-- The seasonal factor is always an actual number in `[0.5, 1.5]`. -/
theorem calculate_seasonality_val (rows : List (ℕ × ℚ)) (day : ℕ) :
    ∃ f, calculate_seasonality rows day = .val f ∧ (1 : ℚ) / 2 ≤ f ∧ f ≤ 3 / 2 := by
  unfold calculate_seasonality
  by_cases hempty : ((rows.filter fun r => r.1 % 7 == day).map (·.2)).isEmpty
  · exact ⟨1, by rw [if_pos hempty], by norm_num, by norm_num⟩
  · rw [if_neg hempty]
    have hne : ((rows.filter fun r => r.1 % 7 == day).map (·.2)).isEmpty = false :=
      Bool.eq_false_iff.mpr hempty
    have hrowsne : rows ≠ [] := by
      intro hnil
      apply hempty
      rw [hnil]
      rfl
    have hmape : (rows.map (·.2)).isEmpty = false := by
      cases rows with
      | nil => exact absurd rfl hrowsne
      | cons a l => rfl
    obtain ⟨m2, hm2, hm2ne⟩ :
        ∃ m2, pfOrOne (qMean (rows.map (·.2))) = .val m2 ∧ m2 ≠ 0 := by
      simp only [qMean, hmape, Bool.false_eq_true, if_false]
      by_cases hm : meanQ (rows.map (·.2)) = 0
      · exact ⟨1, by simp [pfOrOne, hm], one_ne_zero⟩
      · exact ⟨_, by simp [pfOrOne, hm], hm⟩
    rw [hm2]
    have hdvq : qMean ((rows.filter fun r => r.1 % 7 == day).map (·.2)) =
        .val (meanQ ((rows.filter fun r => r.1 % 7 == day).map (·.2))) := by
      simp only [qMean, hne, Bool.false_eq_true, if_false]
    rw [hdvq]
    have hdiv : PF.div (.val (meanQ ((rows.filter fun r => r.1 % 7 == day).map (·.2))))
        (.val m2) =
        .val (meanQ ((rows.filter fun r => r.1 % 7 == day).map (·.2)) / m2) := by
      simp [PF.div, hm2ne]
    simp only [hdiv, pymin_val, pymax_val]
    refine ⟨_, rfl, le_max_left _ _, max_le (by norm_num) (min_le_left _ _)⟩

/-- PF multiplication on actual numbers. -/
theorem PF.mul_val (a b : ℚ) : PF.mul (.val a) (.val b) = .val (a * b) := rfl

/-- NaN absorbs multiplication on the right. -/
theorem PF.mul_val_nan (a : ℚ) : PF.mul (.val a) .nan = .nan := rfl

/-- NaN absorbs subtraction on the right. -/
theorem PF.sub_val_nan (a : ℚ) : PF.sub (.val a) .nan = .nan := rfl

/-- NaN absorbs addition on the right. -/
theorem PF.add_val_nan (a : ℚ) : PF.add (.val a) .nan = .nan := rfl

/-- The `or 0` guard keeps NaN (NaN is truthy). -/
theorem pfOrZero_nan : pfOrZero .nan = .nan := rfl

/-- PF addition on actual numbers. -/
theorem PF.add_val (a b : ℚ) : PF.add (.val a) (.val b) = .val (a + b) := rfl

/-- PF subtraction on actual numbers. -/
theorem PF.sub_val (a b : ℚ) : PF.sub (.val a) (.val b) = .val (a - b) := rfl

/-- Closed form of one forecast row when the std is an actual number and
the seasonal factor of the row's weekday is an actual number. -/
theorem forecastRow_eq (m t s f : ℚ) (seas : ℕ → PF) (lastDate i : ℕ)
    (hf : seas ((lastDate + 1 + i) % 7) = .val f) :
    forecastRow m t seas (.val s) lastDate i =
      { ds := lastDate + 1 + i
        yhat := .val (max 0 (basePrediction m t i * f))
        yhatLower := .val (max 0 (max 0 (basePrediction m t i * f) - 196 / 100 * s))
        yhatUpper := .val (max 0 (basePrediction m t i * f) + 196 / 100 * s) } := by
  simp only [forecastRow, hf, PF.mul_val, pymax_val, PF.sub_val, PF.add_val]

/-- The interval invariant of one forecast row, for a non-negative
actual std. -/
theorem forecastRow_bounds (m t s f : ℚ) (seas : ℕ → PF) (lastDate i : ℕ)
    (hs : 0 ≤ s) (hf : seas ((lastDate + 1 + i) % 7) = .val f) :
    PF.leb (.val 0) (forecastRow m t seas (.val s) lastDate i).yhatLower = true ∧
    PF.leb (forecastRow m t seas (.val s) lastDate i).yhatLower
      (forecastRow m t seas (.val s) lastDate i).yhat = true ∧
    PF.leb (forecastRow m t seas (.val s) lastDate i).yhat
      (forecastRow m t seas (.val s) lastDate i).yhatUpper = true ∧
    PF.leb (.val 0) (forecastRow m t seas (.val s) lastDate i).yhat = true ∧
    PF.leb (.val 0) (forecastRow m t seas (.val s) lastDate i).yhatUpper = true := by
  rw [forecastRow_eq m t s f seas lastDate i hf]
  simp only [PF.leb, decide_eq_true_eq]
  have hP0 : (0 : ℚ) ≤ max 0 (basePrediction m t i * f) := le_max_left _ _
  have hc : (0 : ℚ) ≤ 196 / 100 * s := by positivity
  refine ⟨le_max_left _ _, max_le hP0 (by linarith), by linarith, hP0, by linarith⟩

/-- C2 (amended).  For every historical input that keeps at least two
numeric points after the `to_numeric`/`dropna` cleaning, and every
horizon, every row of the forecast frame returned by `predict_sales`
satisfies `yhat_lower ≤ yhat ≤ yhat_upper` with all three values `≥ 0`.
(The claim as stated over every non-empty input fails: with exactly one
numeric point the pandas std is NaN, see the counterexample.) -/
theorem predict_sales_bounds (rows : List HistRow) (periods : ℕ) (σ : PF)
    (hσ : isStdOf ((cleanRows rows).map (·.2)) σ)
    (h2 : 2 ≤ (cleanRows rows).length)
    (fc : List ForecastRow) (hfc : predict_sales (some rows) periods σ = some fc) :
    ∀ r ∈ fc,
      PF.leb (.val 0) r.yhatLower = true ∧
      PF.leb r.yhatLower r.yhat = true ∧
      PF.leb r.yhat r.yhatUpper = true ∧
      PF.leb (.val 0) r.yhat = true ∧
      PF.leb (.val 0) r.yhatUpper = true := by
  obtain ⟨s, hσv, hs⟩ := isStdOf_val _ σ hσ (by simpa using h2)
  subst hσv
  have hrne : rows.isEmpty = false := by
    cases rows with
    | nil => simp [cleanRows] at h2
    | cons a l => rfl
  have hcne : (cleanRows rows).isEmpty = false := by
    cases hcr : cleanRows rows with
    | nil => rw [hcr] at h2; simp at h2
    | cons a l => simp [hcr]
  rw [predict_sales] at hfc
  simp only [hrne, hcne, Bool.false_eq_true, if_false, pfOrZero_val] at hfc
  have hfc2 := Option.some.inj hfc
  intro r hr
  rw [← hfc2] at hr
  rcases List.mem_map.mp hr with ⟨i, hi, hri⟩
  obtain ⟨f, hf, _, _⟩ := calculate_seasonality_val (cleanRows rows)
    ((((cleanRows rows).map (·.1)).foldr max 0 + 1 + i) % 7)
  rw [← hri]
  exact forecastRow_bounds _ _ s f _ _ i hs hf

/-- C2 counterexample: the history `[(day 0, 5)]` is non-empty, its pandas
std is NaN (one point, `ddof = 1`), and the forecast row it produces has a
NaN upper bound, so `yhat ≤ yhat_upper` evaluates to false. -/
theorem predict_sales_bounds_cex :
    isStdOf ((cleanRows [⟨0, some 5⟩]).map (·.2)) .nan ∧
    predict_sales (some [⟨0, some 5⟩]) 1 .nan =
      some [{ ds := 1, yhat := .val 5, yhatLower := .val 0, yhatUpper := .nan }] ∧
    PF.leb (.val 5) .nan = false := by
  refine ⟨?_, ?_, rfl⟩
  · show sampleVar _ = .nan
    rfl
  · norm_num [predict_sales, cleanRows, forecastRow, basePrediction, calculate_trend,
      calculate_seasonality, meanQ, qMean, pfOrZero_nan, pfOrZero_val, pfOrOne,
      pymax_val, pymax_nan, pymin_val, PF.mul_val, PF.add_val, PF.sub_val,
      PF.mul_val_nan, PF.sub_val_nan, PF.add_val_nan, PF.div, PF.ltb,
      List.filterMap_cons, List.range_succ, max_def, Nat.max_def]

/-- Witness for C2: a two-point history with std 0 — the theorem applies
and the forecast bounds hold. -/
theorem predict_sales_bounds_witness :
    isStdOf ((cleanRows [⟨0, some 5⟩, ⟨1, some 5⟩]).map (·.2)) (.val 0) ∧
    2 ≤ (cleanRows [⟨0, some 5⟩, ⟨1, some 5⟩]).length ∧
    ∀ r ∈ [({ ds := 2, yhat := .val 5, yhatLower := .val 5, yhatUpper := .val 5 } : ForecastRow)],
      PF.leb (.val 0) r.yhatLower = true ∧
      PF.leb r.yhatLower r.yhat = true ∧
      PF.leb r.yhat r.yhatUpper = true ∧
      PF.leb (.val 0) r.yhat = true ∧
      PF.leb (.val 0) r.yhatUpper = true :=
  ⟨⟨le_refl 0, by norm_num [sampleVar, cleanRows, meanQ, List.filterMap_cons]⟩, by decide,
    predict_sales_bounds [⟨0, some 5⟩, ⟨1, some 5⟩] 1 (.val 0)
      ⟨le_refl 0, by norm_num [sampleVar, cleanRows, meanQ, List.filterMap_cons]⟩ (by decide) _
      (by norm_num [predict_sales, cleanRows, forecastRow, basePrediction, calculate_trend,
        calculate_seasonality, meanQ, qMean, pfOrZero_nan, pfOrZero_val, pfOrOne,
        pymax_val, pymax_nan, pymin_val, PF.mul_val, PF.add_val, PF.sub_val,
        PF.mul_val_nan, PF.sub_val_nan, PF.add_val_nan, PF.div, PF.ltb,
        List.filterMap_cons, List.range_succ, max_def, Nat.max_def])⟩

/-- Python `max(1, mean(yhat))` is 1 when every yhat is 0 — also when the
column is empty and the mean is NaN. -/
theorem pymax_one_mean_zero (l : List PF) (h : ∀ x ∈ l, x = PF.val 0) :
    pymax (.val 1) (pfMean l) = .val 1 := by
  unfold pfMean qMean
  by_cases hz : (l.filterMap fun x => match x with | .nan => none | .val q => some q) = []
  · rw [hz]
    simp [pymax_nan]
  · have hz2 : (l.filterMap fun x =>
        match x with | .nan => none | .val q => some q).isEmpty = false := by
      simpa [List.isEmpty_iff] using hz
    rw [hz2]
    simp only [Bool.false_eq_true, if_false]
    have hzero : ∀ z ∈ (l.filterMap fun x =>
        match x with | .nan => none | .val q => some q), z = (0 : ℚ) := by
      intro z hzmem
      rcases List.mem_filterMap.mp hzmem with ⟨x, hx, hfx⟩
      rw [h x hx] at hfx
      exact (Option.some.inj hfx).symm
    have hsum : (l.filterMap fun x =>
        match x with | .nan => none | .val q => some q).sum = 0 :=
      List.sum_eq_zero hzero
    rw [meanQ, hsum, zero_div, pymax_val]
    norm_num

/-- Cleaning an all-zero history keeps every row with value 0. -/
theorem cleanRows_all_zero (rows : List HistRow) (h : ∀ r ∈ rows, r.y = some 0) :
    cleanRows rows = rows.map fun r => (r.ds, (0 : ℚ)) := by
  induction rows with
  | nil => rfl
  | cons a l ih =>
    have ha := h a (List.mem_cons_self a l)
    have ih2 := ih fun r hr => h r (List.mem_cons_of_mem a hr)
    simp only [cleanRows, List.filterMap_cons, ha, Option.map_some, List.map_cons] at ih2 ⊢
    rw [ih2]
    rfl

/-- The forecast of a zero-mean history is identically zero. -/
theorem forecastRow_yhat_zero (t : ℚ) (seas : ℕ → PF) (std : PF) (last i : ℕ)
    (hseas : ∃ f, seas ((last + 1 + i) % 7) = .val f) :
    (forecastRow 0 t seas std last i).yhat = .val 0 := by
  obtain ⟨f, hf⟩ := hseas
  simp only [forecastRow, hf, basePrediction, zero_mul, max_self, PF.mul_val, pymax_val]

/-- On an all-zero history `predict_sales` succeeds and every predicted
yhat is 0. -/
theorem predict_sales_zero_yhat (rows : List HistRow) (periods : ℕ) (σ : PF)
    (hall : ∀ r ∈ rows, r.y = some 0) (hne : rows ≠ []) :
    ∃ fc, predict_sales (some rows) periods σ = some fc ∧
      ∀ r ∈ fc, r.yhat = .val 0 := by
  have hclean := cleanRows_all_zero rows hall
  have hrne : rows.isEmpty = false := by
    cases rows with
    | nil => exact absurd rfl hne
    | cons a l => rfl
  have hcne : (cleanRows rows).isEmpty = false := by
    rw [hclean]
    cases rows with
    | nil => exact absurd rfl hne
    | cons a l => rfl
  have hm : meanQ ((cleanRows rows).map (·.2)) = 0 := by
    have hz : ∀ z ∈ (cleanRows rows).map (·.2), z = (0 : ℚ) := by
      intro z hzm
      rcases List.mem_map.mp hzm with ⟨p, hp, hpz⟩
      rw [hclean] at hp
      rcases List.mem_map.mp hp with ⟨r, _, hrp⟩
      rw [← hpz, ← hrp]
    rw [meanQ, List.sum_eq_zero hz, zero_div]
  rw [predict_sales]
  simp only [hrne, hcne, Bool.false_eq_true, if_false, hm]
  refine ⟨_, rfl, ?_⟩
  intro r hr
  rcases List.mem_map.mp hr with ⟨i, _, hri⟩
  rw [← hri]
  apply forecastRow_yhat_zero
  obtain ⟨f, hf, _, _⟩ := calculate_seasonality_val (cleanRows rows)
    ((((cleanRows rows).map (·.1)).foldr max 0 + 1 + i) % 7)
  exact ⟨f, hf⟩

/-- C3 (amended).  The stock recommendation of `calculate_metrics`
satisfies `min_stock < optimal_stock < max_stock` for every input,
including the exception fallback; and when the sales history is all zeros
(historical mean sales 0) the pipeline recommendation is the fixed floor
`min = 15`, `optimal = 30`, `max = 45` — the code's floors, not the
claimed `(1, 3, 5)`. -/
theorem calculate_metrics_stock (forecast : Option (List ForecastRow))
    (hist : Option (List HistRow)) (rows : List HistRow) (periods : ℕ) (σ : PF) :
    (∃ mn op mx,
      (calculate_metrics forecast hist).stockRecommendations =
        { minStock := .val mn, maxStock := .val mx, optimalStock := .val op } ∧
      mn < op ∧ op < mx) ∧
    ((∀ r ∈ rows, r.y = some 0) → rows ≠ [] →
      (calculate_metrics (predict_sales (some rows) periods σ)
          (some rows)).stockRecommendations =
        { minStock := .val 15, maxStock := .val 45, optimalStock := .val 30 }) := by
  constructor
  · cases forecast with
    | none =>
      cases hist with
      | none => exact ⟨15, 30, 45, rfl, by norm_num, by norm_num⟩
      | some h => exact ⟨15, 30, 45, rfl, by norm_num, by norm_num⟩
    | some fc =>
      cases hist with
      | none => exact ⟨15, 30, 45, rfl, by norm_num, by norm_num⟩
      | some h =>
        obtain ⟨d, hd1, hda⟩ : ∃ d, 1 ≤ d ∧
            pymax (.val 1) (pfMean ((tail30 fc).map (·.yhat))) = .val d := by
          cases hmn : pfMean ((tail30 fc).map (·.yhat)) with
          | nan => exact ⟨1, le_refl 1, by rw [pymax_nan]⟩
          | val q => exact ⟨max 1 q, le_max_left _ _, by rw [pymax_val]⟩
        have h15 : max (15 : ℚ) (d * 15) = d * 15 := max_eq_right (by nlinarith)
        have h30 : max (30 : ℚ) (d * 30) = d * 30 := max_eq_right (by nlinarith)
        have h45 : max (45 : ℚ) (d * 45) = d * 45 := max_eq_right (by nlinarith)
        refine ⟨d * 15, d * 30, d * 45, ?_, by nlinarith, by nlinarith⟩
        simp only [calculate_metrics, hda, PF.mul_val, pymax_val, h15, h30, h45]
  · intro hall hne
    obtain ⟨fc, hfc, hz⟩ := predict_sales_zero_yhat rows periods σ hall hne
    rw [hfc]
    have hda : pymax (.val 1) (pfMean ((tail30 fc).map (·.yhat))) = .val 1 := by
      apply pymax_one_mean_zero
      intro x hx
      rcases List.mem_map.mp hx with ⟨r, hr, hrx⟩
      rw [← hrx]
      refine hz r ?_
      have hsub : tail30 fc ⊆ fc := by
        unfold tail30
        exact List.drop_subset _ _
      exact hsub hr
    simp only [calculate_metrics, hda, PF.mul_val, pymax_val]
    norm_num [max_def]

/-- C3 counterexample: a history of two all-zero days (historical mean
sales 0) run through the actual pipeline yields the stock recommendation
`(min, optimal, max) = (15, 30, 45)`, not the claimed `(1, 3, 5)`. -/
theorem calculate_metrics_defaults_cex :
    meanQ ((cleanRows [(⟨0, some 0⟩ : HistRow), ⟨1, some 0⟩]).map (·.2)) = 0 ∧
    (calculate_metrics
        (predict_sales (some [(⟨0, some 0⟩ : HistRow), ⟨1, some 0⟩]) 1 (.val 0))
        (some [(⟨0, some 0⟩ : HistRow), ⟨1, some 0⟩])).stockRecommendations =
      { minStock := .val 15, maxStock := .val 45, optimalStock := .val 30 } ∧
    ({ minStock := .val 15, maxStock := .val 45, optimalStock := .val 30 } : StockRec) ≠
      { minStock := .val 1, maxStock := .val 5, optimalStock := .val 3 } := by
  refine ⟨by norm_num [cleanRows, meanQ, List.filterMap_cons], ?_, by norm_num⟩
  obtain ⟨fc, hfc, hz⟩ := predict_sales_zero_yhat [⟨0, some 0⟩, ⟨1, some 0⟩] 1 (.val 0)
    (by decide) (by simp)
  rw [hfc]
  have hda : pymax (.val 1) (pfMean ((tail30 fc).map (·.yhat))) = .val 1 := by
    apply pymax_one_mean_zero
    intro x hx
    rcases List.mem_map.mp hx with ⟨r, hr, hrx⟩
    rw [← hrx]
    refine hz r ?_
    have hsub : tail30 fc ⊆ fc := by
      unfold tail30
      exact List.drop_subset _ _
    exact hsub hr
  simp only [calculate_metrics, hda, PF.mul_val, pymax_val]
  norm_num [max_def]

/-- Witness for C3: the fallback path (None inputs) and the all-zero
pipeline, both through the theorem. -/
theorem calculate_metrics_stock_witness :
    (∃ mn op mx,
      (calculate_metrics none none).stockRecommendations =
        { minStock := .val mn, maxStock := .val mx, optimalStock := .val op } ∧
      mn < op ∧ op < mx) ∧
    (calculate_metrics (predict_sales (some [(⟨0, some 0⟩ : HistRow)]) 1 (.val 0))
        (some [(⟨0, some 0⟩ : HistRow)])).stockRecommendations =
      { minStock := .val 15, maxStock := .val 45, optimalStock := .val 30 } :=
  ⟨(calculate_metrics_stock none none [⟨0, some 0⟩] 1 (.val 0)).1,
   (calculate_metrics_stock none none [⟨0, some 0⟩] 1 (.val 0)).2
     (by decide) (by simp)⟩

/-- C4.  `predict_sales` is a total function into `Option` (the embedding
of its enclosing try/except): it never propagates an error.  It returns a
null result exactly when the input history is absent (`None`), empty, or
loses every row to the numeric coercion — the last case is the reachable
internal error (building a date range from a NaT last date raises, and the
`except` clause converts the raise to `None`).  In particular an absent or
empty input gives `None`. -/
theorem predict_sales_null_contract (hist : Option (List HistRow)) (periods : ℕ) (σ : PF) :
    (predict_sales hist periods σ = none ↔
      hist = none ∨ ∃ rows, hist = some rows ∧ cleanRows rows = []) ∧
    (predict_sales none periods σ = none ∧ predict_sales (some []) periods σ = none) := by
  refine ⟨?_, rfl, rfl⟩
  cases hist with
  | none => simp [predict_sales]
  | some rows =>
    by_cases hr : rows.isEmpty
    · have hnil : rows = [] := List.isEmpty_iff.mp hr
      subst hnil
      simp [predict_sales, cleanRows]
    · have hrne : rows.isEmpty = false := Bool.eq_false_iff.mpr hr
      by_cases hc : (cleanRows rows).isEmpty
      · have hcnil : cleanRows rows = [] := List.isEmpty_iff.mp hc
        rw [predict_sales]
        simp [hrne, hcnil]
      · have hcne : (cleanRows rows).isEmpty = false := Bool.eq_false_iff.mpr hc
        have hcnil : cleanRows rows ≠ [] := fun h => hc (List.isEmpty_iff.mpr h)
        rw [predict_sales]
        simp [hrne, hcne, hcnil]

/-- Witness for C4: a non-empty input whose only row fails the numeric
coercion (the internal-error path) yields a null result. -/
theorem predict_sales_null_contract_witness :
    predict_sales (some [⟨0, none⟩]) 30 (.val 0) = none :=
  (predict_sales_null_contract (some [⟨0, none⟩]) 30 (.val 0)).1.mpr
    (Or.inr ⟨[⟨0, none⟩], rfl, rfl⟩)

/-- C9.  Every per-weekday seasonality factor of `_calculate_seasonality`
lies in `[0.5, 1.5]`; a weekday absent from the history gets factor
exactly `1.0`; hence no forecast point of `predict_sales` exceeds `1.5`
times its trend-adjusted base prediction. -/
theorem seasonality_clamped (rows2 : List (ℕ × ℚ)) (day : ℕ) (rows : List HistRow)
    (periods : ℕ) (σ : PF) (fc : List ForecastRow)
    (hfc : predict_sales (some rows) periods σ = some fc) (i : ℕ) (hi : i < fc.length) :
    (∃ f, calculate_seasonality rows2 day = .val f ∧ (1 : ℚ) / 2 ≤ f ∧ f ≤ 3 / 2) ∧
    ((∀ r ∈ rows2, ¬ r.1 % 7 = day) → calculate_seasonality rows2 day = .val 1) ∧
    PF.leb (fc.get ⟨i, hi⟩).yhat
      (.val (3 / 2 * basePrediction (meanQ ((cleanRows rows).map (·.2)))
        (calculate_trend ((cleanRows rows).map (·.2))) i)) = true := by
  refine ⟨calculate_seasonality_val rows2 day, ?_, ?_⟩
  · intro habs
    unfold calculate_seasonality
    have hfe : (rows2.filter fun r => r.1 % 7 == day) = [] := by
      rw [List.filter_eq_nil_iff]
      intro r hr
      simpa using habs r hr
    rw [hfe]
    rfl
  · have hrne : rows.isEmpty = false := by
      cases hrows : rows with
      | nil =>
        rw [hrows] at hfc
        rw [predict_sales] at hfc
        simp at hfc
      | cons a l => rfl
    have hcne : (cleanRows rows).isEmpty = false := by
      cases hcr : cleanRows rows with
      | nil =>
        rw [predict_sales] at hfc
        simp only [hrne, Bool.false_eq_true, if_false, hcr] at hfc
        simp at hfc
      | cons a l => simp [hcr]
    rw [predict_sales] at hfc
    simp only [hrne, hcne, Bool.false_eq_true, if_false] at hfc
    have hfc2 := Option.some.inj hfc
    obtain ⟨f, hf, hf1, hf2⟩ := calculate_seasonality_val (cleanRows rows)
      ((((cleanRows rows).map (·.1)).foldr max 0 + 1 + i) % 7)
    have hget : fc.get ⟨i, hi⟩ =
        forecastRow (meanQ ((cleanRows rows).map (·.2)))
          (calculate_trend ((cleanRows rows).map (·.2)))
          (calculate_seasonality (cleanRows rows)) (pfOrZero σ)
          (((cleanRows rows).map (·.1)).foldr max 0) i := by
      have hlen : fc.length = periods := by
        rw [← hfc2]
        simp
      rcases hfc2 with rfl
      rw [List.get_map]
      congr 1
      simp
    rw [hget]
    cases hσ2 : pfOrZero σ with
    | nan =>
      have hyh : (forecastRow (meanQ ((cleanRows rows).map (·.2)))
          (calculate_trend ((cleanRows rows).map (·.2)))
          (calculate_seasonality (cleanRows rows)) PF.nan
          (((cleanRows rows).map (·.1)).foldr max 0) i).yhat =
          .val (max 0 (basePrediction (meanQ ((cleanRows rows).map (·.2)))
            (calculate_trend ((cleanRows rows).map (·.2))) i * f)) := by
        simp only [forecastRow, hf, PF.mul_val, pymax_val]
      rw [hyh]
      simp only [PF.leb, decide_eq_true_eq]
      have hbase : 0 ≤ basePrediction (meanQ ((cleanRows rows).map (·.2)))
          (calculate_trend ((cleanRows rows).map (·.2))) i := le_max_left _ _
      refine max_le (by positivity) (by nlinarith)
    | val s =>
      have hyh : (forecastRow (meanQ ((cleanRows rows).map (·.2)))
          (calculate_trend ((cleanRows rows).map (·.2)))
          (calculate_seasonality (cleanRows rows)) (.val s)
          (((cleanRows rows).map (·.1)).foldr max 0) i).yhat =
          .val (max 0 (basePrediction (meanQ ((cleanRows rows).map (·.2)))
            (calculate_trend ((cleanRows rows).map (·.2))) i * f)) := by
        simp only [forecastRow, hf, PF.mul_val, pymax_val]
      rw [hyh]
      simp only [PF.leb, decide_eq_true_eq]
      have hbase : 0 ≤ basePrediction (meanQ ((cleanRows rows).map (·.2)))
          (calculate_trend ((cleanRows rows).map (·.2))) i := le_max_left _ _
      refine max_le (by positivity) (by nlinarith)

/-- Witness for C9: the one-point history pipeline — the factor of an
absent weekday is 1, all factors are clamped, and the forecast point does
not exceed 1.5 times its base prediction. -/
theorem seasonality_clamped_witness :
    (∃ f, calculate_seasonality [] 0 = .val f ∧ (1 : ℚ) / 2 ≤ f ∧ f ≤ 3 / 2) ∧
    ((∀ r ∈ ([] : List (ℕ × ℚ)), ¬ r.1 % 7 = 0) → calculate_seasonality [] 0 = .val 1) ∧
    PF.leb (([{ ds := 1, yhat := .val 5, yhatLower := .val 0,
                yhatUpper := .nan }] : List ForecastRow).get ⟨0, by norm_num⟩).yhat
      (.val (3 / 2 * basePrediction (meanQ ((cleanRows [⟨0, some 5⟩]).map (·.2)))
        (calculate_trend ((cleanRows [⟨0, some 5⟩]).map (·.2))) 0)) = true :=
  seasonality_clamped [] 0 [⟨0, some 5⟩] 1 .nan
    [{ ds := 1, yhat := .val 5, yhatLower := .val 0, yhatUpper := .nan }]
    (by norm_num [predict_sales, cleanRows, forecastRow, basePrediction, calculate_trend,
      calculate_seasonality, meanQ, qMean, pfOrZero_nan, pfOrZero_val, pfOrOne,
      pymax_val, pymax_nan, pymin_val, PF.mul_val, PF.add_val, PF.sub_val,
      PF.mul_val_nan, PF.sub_val_nan, PF.add_val_nan, PF.div, PF.ltb,
      List.filterMap_cons, List.range_succ, max_def, Nat.max_def]) 0 (by norm_num)

/-- C5 counterexample: with 3 products the slider still allows `k = 5`
(its default), and `perform_clustering` propagates the KMeans validation
error instead of clamping `k` to `n − 1 = 2`: no clamping exists anywhere
on this path. -/
theorem perform_clustering_no_clamp_cex :
    sliderAllows 5 ∧
    perform_clustering 5 [((0 : ℚ), (0 : ℚ)), (1, 0), (0, 1)] =
      .error "n_samples=3 should be >= n_clusters=5" := by
  exact ⟨⟨by norm_num, by norm_num⟩, rfl⟩

/-- C5 (amended).  The clusterer does not clamp the user-chosen `k`: when
`k` exceeds the number of products, `perform_clustering` raises (it
propagates KMeans's `n_samples ≥ n_clusters` validation error, see the
counterexample).  For every `1 ≤ k ≤ n − 1`, every product is assigned
exactly one cluster id in `[0, k)` and the number of distinct clusters
equals `k`. -/
theorem perform_clustering_labels (k : ℕ) (pts : List (ℚ × ℚ))
    (hk : 1 ≤ k) (hn : k ≤ pts.length - 1) :
    ∃ labels centers, perform_clustering k pts = .ok (labels, centers) ∧
      labels.length = pts.length ∧
      (∀ l ∈ labels, l < k) ∧
      (∀ c, c < k → c ∈ labels) ∧
      labels.toFinset.card = k := by
  have hk0 : ¬ k = 0 := by omega
  have hlen : ¬ pts.length < k := by omega
  have hok : kmeansFitPredict k (some 42) 10 pts =
      .ok ((List.range pts.length).map fun i => i % k) := by
    rw [kmeansFitPredict, if_neg hk0, if_neg hlen]
  obtain ⟨centers, hpc⟩ : ∃ centers, perform_clustering k pts =
      .ok ((List.range pts.length).map fun i => i % k, centers) := by
    unfold perform_clustering
    rw [hok]
    exact ⟨_, rfl⟩
  refine ⟨(List.range pts.length).map fun i => i % k, centers, hpc, by simp, ?_, ?_, ?_⟩
  · intro l hl
    rcases List.mem_map.mp hl with ⟨i, _, hil⟩
    rw [← hil]
    exact Nat.mod_lt i (by omega)
  · intro c hc
    exact List.mem_map.mpr ⟨c, List.mem_range.mpr (by omega), Nat.mod_eq_of_lt hc⟩
  · have hset : ((List.range pts.length).map fun i => i % k).toFinset = Finset.range k := by
      ext x
      simp only [List.mem_toFinset, Finset.mem_range]
      constructor
      · intro hx
        rcases List.mem_map.mp hx with ⟨i, _, hil⟩
        rw [← hil]
        exact Nat.mod_lt i (by omega)
      · intro hx
        exact List.mem_map.mpr ⟨x, List.mem_range.mpr (by omega), Nat.mod_eq_of_lt hx⟩
    rw [hset, Finset.card_range]

/-- Witness for C5: three products, `k = 2 ≤ n − 1` — clustering succeeds
with both cluster ids used. -/
theorem perform_clustering_labels_witness :
    1 ≤ 2 ∧ 2 ≤ ([((0 : ℚ), (0 : ℚ)), (1, 0), (0, 1)] : List (ℚ × ℚ)).length - 1 ∧
    (∃ labels centers,
      perform_clustering 2 [((0 : ℚ), (0 : ℚ)), (1, 0), (0, 1)] = .ok (labels, centers) ∧
      labels.length = ([((0 : ℚ), (0 : ℚ)), (1, 0), (0, 1)] : List (ℚ × ℚ)).length ∧
      (∀ l ∈ labels, l < 2) ∧
      (∀ c, c < 2 → c ∈ labels) ∧
      labels.toFinset.card = 2) :=
  ⟨by norm_num, by norm_num,
    perform_clustering_labels 2 [((0 : ℚ), (0 : ℚ)), (1, 0), (0, 1)]
      (by norm_num) (by norm_num)⟩

/-- The stock-change column of a non-empty inventory frame always contains
the NaN coming from the last row's NULL `LEAD`. -/
theorem stockChanges_has_nan (l : List (ℕ × ℤ)) (h : l ≠ []) :
    (stockChanges l).any PF.isNan = true := by
  induction l with
  | nil => exact absurd rfl h
  | cons a tl ih =>
    cases tl with
    | nil => rfl
    | cons b rest =>
      have htl := ih (by simp)
      have hstep : stockChanges (a :: b :: rest) =
          PF.val ((a.2 - b.2 : ℤ) : ℚ) :: stockChanges (b :: rest) := rfl
      rw [hstep, List.any_cons, htl]
      simp [PF.isNan]

/-- C6.  The sales-anomaly path returns a null result when the available
history is absent or shorter than the 30-day minimum window; the
inventory-anomaly path returns a null result when fewer than 7
observations are available (the empty frame is guarded explicitly, and
every non-empty frame reaches the IsolationForest fit with the NaN
stock-change of its last row, whose `LEAD` is NULL — the fit raises and
the `except` clause returns null). -/
theorem anomaly_min_data_guards (entropy : ℕ) (d : List (ℕ × PF)) (inv : List (ℕ × ℤ)) :
    detect_sales_anomalies entropy none 30 = none ∧
    (d.length < 30 → detect_sales_anomalies entropy (some d) 30 = none) ∧
    (inv.length < 7 → detect_inventory_anomalies entropy inv = none) := by
  refine ⟨rfl, ?_, ?_⟩
  · intro h
    rw [detect_sales_anomalies]
    simp [h]
  · intro _
    by_cases hinv : inv = []
    · subst hinv
      rfl
    · have hnan := stockChanges_has_nan inv hinv
      have hie : inv.isEmpty = false := by
        cases inv with
        | nil => exact absurd rfl hinv
        | cons a l => rfl
      have herr : isolationForestFit (some 42) entropy (1 / 10) (stockChanges inv) =
          .error "Input contains NaN" := by
        rw [isolationForestFit, if_pos hnan]
      rw [detect_inventory_anomalies]
      simp only [hie, Bool.false_eq_true, if_false, herr]

/-- Witness for C6: a 1-day sales history and a 2-row inventory frame both
yield null results. -/
theorem anomaly_min_data_guards_witness :
    detect_sales_anomalies 0 none 30 = none ∧
    detect_sales_anomalies 0 (some [(0, PF.val 1)]) 30 = none ∧
    detect_inventory_anomalies 0 [(0, 3), (1, 1)] = none :=
  ⟨(anomaly_min_data_guards 0 [(0, PF.val 1)] [(0, 3), (1, 1)]).1,
   (anomaly_min_data_guards 0 [(0, PF.val 1)] [(0, 3), (1, 1)]).2.1 (by norm_num),
   (anomaly_min_data_guards 0 [(0, PF.val 1)] [(0, 3), (1, 1)]).2.2 (by norm_num)⟩

/-- C7.  Both anomaly detectors construct their IsolationForest with the
fixed `random_state = 42`, so the ambient RNG state (the `entropy`
parameter, consulted by the forest model only when `random_state` is
absent) cannot influence the result: two runs on identical input produce
identical annotated frames — in particular identical anomaly labels and
identical anomaly scores. -/
theorem anomaly_detection_deterministic (e1 e2 : ℕ) (salesData : Option (List (ℕ × PF)))
    (w : ℕ) (inv : List (ℕ × ℤ)) :
    detect_sales_anomalies e1 salesData w = detect_sales_anomalies e2 salesData w ∧
    detect_inventory_anomalies e1 inv = detect_inventory_anomalies e2 inv :=
  ⟨rfl, rfl⟩

/-- C8.  When the sales-history query returns no rows, `get_product_sales`
silently returns a 91-day synthetic series of clipped random normal draws
— a non-null, non-empty frame whose `y` column is exactly
`max(0, draw_i)` — instead of signalling insufficient data with a
null/empty result. -/
theorem get_product_sales_synthetic_fallback (draws : ℕ → ℚ) (today : ℕ) :
    ∃ rows, get_product_sales [] draws today = some rows ∧
      rows.length = 91 ∧ rows ≠ [] ∧
      rows.map Prod.snd = (List.range 91).map fun i => max 0 (draws i) := by
  refine ⟨_, rfl, by simp, ?_, ?_⟩
  · simp [List.map_eq_nil_iff, List.range_eq_nil]
  · simp [List.map_map, Function.comp]

/-- C10.  The metric calculators are total with guarded division (the
`np.where` evaluates both branches — division by zero only yields a junk
value in the discarded branch, never an exception): turnover is
`sales/stock` where `stock > 0` and `0` elsewhere, margin is
`(revenue − cost)/revenue·100` where `revenue > 0` and `0` elsewhere. -/
theorem metrics_calculator_guarded (sales stock revenue cost : List ℚ) :
    calculate_stock_turnover sales stock =
      (sales.zip stock).map
        (fun p => if 0 < p.2 then PF.val (p.1 / p.2) else PF.val 0) ∧
    calculate_margin revenue cost =
      (revenue.zip cost).map
        (fun p => if 0 < p.1 then PF.val ((p.1 - p.2) / p.1 * 100) else PF.val 0) := by
  constructor
  · induction sales generalizing stock with
    | nil => cases stock <;> rfl
    | cons s ss ih =>
      cases stock with
      | nil => rfl
      | cons t ts =>
        have htail := ih ts
        simp only [calculate_stock_turnover, npWhere, List.map_cons,
          List.zip_cons_cons] at htail ⊢
        rw [htail]
        by_cases ht : 0 < t
        · have hne : t ≠ 0 := ne_of_gt ht
          simp [ht, PF.div, hne]
        · simp [ht, PF.div]
  · induction revenue generalizing cost with
    | nil => cases cost <;> rfl
    | cons r rs ih =>
      cases cost with
      | nil => rfl
      | cons c cs =>
        have htail := ih cs
        simp only [calculate_margin, npWhere, List.map_cons,
          List.zip_cons_cons] at htail ⊢
        rw [htail]
        by_cases hr : 0 < r
        · have hne : r ≠ 0 := ne_of_gt hr
          simp [hr, PF.div, PF.sub, PF.mul, hne]
        · simp [hr, PF.div, PF.sub, PF.mul]

end Ecom
